import Mathlib

/-!
# Versioned file bucket mutation protocol — verification development

Shallow embedding of the file-mutation CLI commands of
`zenodo/modules/utils/cli.py` (`add_file`, `remove_file`, `rename_file`,
`attach_file`, `list_files`) and proofs about their locking, indexing and
metadata-sync behaviour.

The embedding follows the Python source line by line:

* `FileInstance`, `ObjectVersion`, `Bucket` mirror the invenio-files-rest
  models as used by the CLI: a bucket holds an append-only list of object
  versions (newest first); a version either references a file instance by id
  or is a delete marker (tombstone, `fileId = none`).
* `ByteStream` models the opened file `fp`: content, a seek position, and a
  counter of read (drain) operations, so that claims about how the size is
  computed can be settled.
* Each CLI command becomes a function from a state to a result and a new
  state.  The interactive `click.confirm` prompt is a boolean parameter.
  Exceptions that library calls could raise mid-operation are modelled by a
  failure-injection parameter `fail : Step → Bool`: when the command reaches
  a step whose flag is set, it stops there (result `.raised step`) with the
  state as mutated so far — exactly what an uncaught Python exception leaves
  behind, since the source installs no try/finally handler.
-/

/-- A stored file (invenio `FileInstance`): id, checksum, byte size. -/
structure FileInstance where
  id : String
  checksum : String
  size : Nat
deriving Repr, DecidableEq

/-- One state of a key in a bucket (invenio `ObjectVersion`): either a
reference to a `FileInstance` by id, or a delete marker (`fileId = none`). -/
structure ObjectVersion where
  key : String
  fileId : Option String
deriving Repr, DecidableEq

/-- A bucket: lock flag plus the append-only version history, newest first. -/
structure Bucket where
  id : Nat
  locked : Bool
  versions : List ObjectVersion
deriving Repr, DecidableEq

/-- The file-instance table shared by all buckets, plus a counter used to
mint fresh file ids on ingestion. -/
structure Store where
  files : List FileInstance
  nextId : Nat
deriving Repr, DecidableEq

/-- A record together with its bucket and the file listing embedded in its
metadata document (the `_files` key written by `record.files.flush()`):
tuples of (key, checksum, size). -/
structure RecordState where
  bucket : Bucket
  filesMeta : List (String × String × Nat)
deriving Repr, DecidableEq

/-- Look up a file instance by id. -/
def Store.findFile (st : Store) (fid : String) : Option FileInstance :=
  st.files.find? (fun f => f.id == fid)

/-- `ObjectVersion.get(bucket, key)`: the newest version for `key`, or `none`
if the key is absent or its newest version is a delete marker. -/
def ObjectVersion.get (b : Bucket) (key : String) : Option ObjectVersion :=
  match b.versions.find? (fun v => v.key == key) with
  | some v => if v.fileId.isSome then some v else none
  | none => none

/-- `ObjectVersion.delete(bucket, key)`: append (prepend, newest first) a
delete marker for `key`. -/
def Bucket.deleteKey (b : Bucket) (key : String) : Bucket :=
  { b with versions := ⟨key, none⟩ :: b.versions }

/-- `ObjectVersion.create(bucket, key, _file_id=fid)`: append a new version
referencing an existing file instance — no byte copy. -/
def Bucket.createWithFileId (b : Bucket) (key : String) (fid : String) : Bucket :=
  { b with versions := ⟨key, some fid⟩ :: b.versions }

/-- Set the lock flag (the Python `bucket.locked = v` assignment: a plain
boolean toggle, no conflict check). -/
def Bucket.setLocked (b : Bucket) (v : Bool) : Bucket :=
  { b with locked := v }

/-! ## Streams (the opened file `fp`) -/

/-- The opened file: name, content bytes, seek position, and a count of how
many times the content has been read (drained). -/
structure ByteStream where
  name : String
  content : List Nat
  pos : Nat
  reads : Nat
deriving Repr, DecidableEq

/-- `fp.seek(SEEK_SET, SEEK_END)` — seek offset 0 relative to the end. -/
def ByteStream.seekEnd (s : ByteStream) : ByteStream :=
  { s with pos := s.content.length }

/-- `fp.tell()`. -/
def ByteStream.tell (s : ByteStream) : Nat := s.pos

/-- `fp.seek(SEEK_SET)` — rewind to the start. -/
def ByteStream.seekSet (s : ByteStream) : ByteStream :=
  { s with pos := 0 }

/-- Drain the stream from the current position to the end, counting one read
operation. -/
def ByteStream.readAll (s : ByteStream) : List Nat × ByteStream :=
  (s.content.drop s.pos,
    { s with pos := s.content.length, reads := s.reads + 1 })

/-- Characters of `os.path.basename`: everything after the last slash. -/
def basenameAux : List Char → List Char → List Char
  | [], acc => acc.reverse
  | c :: cs, acc =>
    if c = '/' then basenameAux cs [] else basenameAux cs (c :: acc)

/-- `os.path.basename(fp.name)` (POSIX). -/
def basename (name : String) : String :=
  ⟨basenameAux name.data []⟩

/-- Lines 90–92 of `add_file`: how the size of the incoming file is obtained.
`fp.seek(SEEK_SET, SEEK_END); size = fp.tell(); fp.seek(SEEK_SET)`. -/
def sizeCalc (s : ByteStream) : Nat × ByteStream :=
  let s1 := s.seekEnd
  let size := s1.tell
  (size, s1.seekSet)

/-- The content digest used for checksums; a deterministic function of the
bytes, standing in for the md5 digest. -/
def digest (bs : List Nat) : String := toString bs

/-! ## Listing and metadata flush -/

/-- Lexicographic comparison of character lists (string order). -/
def charListLe : List Char → List Char → Bool
  | [], _ => true
  | _ :: _, [] => false
  | a :: as, b :: bs =>
    if a = b then charListLe as bs else decide (a < b)

/-- String order used to enumerate listing keys deterministically. -/
def strLe (a b : String) : Bool := charListLe a.data b.data

/-- Insert into a `strLe`-sorted list. -/
def insertSorted (s : String) : List String → List String
  | [] => [s]
  | x :: xs => if strLe s x then s :: x :: xs else x :: insertSorted s xs

/-- Insertion sort by `strLe`. -/
def sortKeys (l : List String) : List String := l.foldr insertSorted []

/-- The keys of a bucket's history, deduplicated and sorted (the order
`record.files` enumerates keys in). -/
def Bucket.sortedKeys (b : Bucket) : List String :=
  sortKeys ((b.versions.map (fun v => v.key)).dedup)

/-- The listing entry a key contributes: when its newest version references
a file instance present in the store, the (key, checksum, size) tuple. -/
def listingEntry (st : Store) (b : Bucket) (k : String) :
    Option (String × String × Nat) :=
  match ObjectVersion.get b k with
  | some v =>
    match v.fileId with
    | some fid =>
      match st.findFile fid with
      | some f => some (k, f.checksum, f.size)
      | none => none
    | none => none
  | none => none

/-- The live listing of a bucket: for each key whose newest version
references a file instance, the (key, checksum, size) tuple. -/
def bucketListing (st : Store) (b : Bucket) : List (String × String × Nat) :=
  b.sortedKeys.filterMap (listingEntry st b)

/-- `record.files.flush()`: rewrite the embedded listing from the bucket. -/
def RecordState.flushFilesMeta (st : Store) (r : RecordState) : RecordState :=
  { r with filesMeta := bucketListing st r.bucket }

/-! ## Failure injection and results -/

/-- The steps after lock release at which a library call could raise. -/
inductive Step where
  | deleteObj
  | createObj
  | flushFiles
  | commitRecord
  | commitDb
deriving Repr, DecidableEq

/-- Outcome of one CLI command. -/
inductive OpResult where
  | ok
  | alreadyExists
  | notFound
  | pidNotFound
  | aborted
  | assertError
  | sizeMismatch
  | raised (s : Step)
deriving Repr, DecidableEq

/-- Result of `add_file`: outcome, store, record, and the stream as left by
the command. -/
structure AddOut where
  result : OpResult
  store : Store
  record : RecordState
  stream : ByteStream
deriving Repr, DecidableEq

/-- `ObjectVersion.create(bucket, key, stream=fp, size=size)`: drain the
stream, verify the observed length against the declared size, mint a fresh
file instance and append a version referencing it. -/
def createFromStream (st : Store) (b : Bucket) (key : String)
    (fp : ByteStream) (size : Nat) :
    Option (Store × Bucket × ByteStream) :=
  let (bytes, fp') := fp.readAll
  if bytes.length ≠ size then none
  else
    let f : FileInstance :=
      { id := toString st.nextId, checksum := digest bytes, size := bytes.length }
    some ({ files := f :: st.files, nextId := st.nextId + 1 },
      b.createWithFileId key f.id, fp')

/-! ## The `add_file` command (cli.py lines 72–138) -/

/-- `add_file(recid, fp, replace_existing)`, after record resolution.

Mirrors the source control flow: look up the existing object; bail out with
`alreadyExists` when present and not replacing; compute the size by
seek/tell/seek; ask for confirmation; then unlock, optionally delete the old
version, create the new one from the stream, relock, flush the record's file
metadata, commit the record and the session.  `fail` injects an exception at
the given step; the command stops there with the state mutated so far. -/
def add_file (st : Store) (r : RecordState) (fp : ByteStream)
    (replace_existing : Bool) (confirm : Bool) (fail : Step → Bool) : AddOut :=
  let bucket := r.bucket
  let key := basename fp.name
  let obj := ObjectVersion.get bucket key
  if obj.isSome ∧ ¬replace_existing then
    ⟨.alreadyExists, st, r, fp⟩
  else
    let (size, fp) := sizeCalc fp
    if ¬confirm then ⟨.aborted, st, r, fp⟩
    else
      let bucket := bucket.setLocked false
      -- replace path: delete the old version first
      if obj.isSome ∧ replace_existing ∧ fail .deleteObj then
        ⟨.raised .deleteObj, st, { r with bucket := bucket }, fp⟩
      else
        let bucket :=
          if obj.isSome ∧ replace_existing then
            bucket.deleteKey ((obj.getD ⟨key, none⟩).key)
          else bucket
        if fail .createObj then
          ⟨.raised .createObj, st, { r with bucket := bucket }, fp⟩
        else
          match createFromStream st bucket key fp size with
          | none => ⟨.sizeMismatch, st, { r with bucket := bucket }, fp⟩
          | some (st, bucket, fp) =>
            let bucket := bucket.setLocked true
            let r := { r with bucket := bucket }
            if fail .flushFiles then ⟨.raised .flushFiles, st, r, fp⟩
            else
              let r := r.flushFilesMeta st
              if fail .commitRecord then ⟨.raised .commitRecord, st, r, fp⟩
              else if fail .commitDb then ⟨.raised .commitDb, st, r, fp⟩
              else ⟨.ok, st, r, fp⟩

/-! ## The `remove_file` command (cli.py lines 141–185) -/

/-- `remove_file(recid, key)`, after record resolution.  Looks up the live
object; bails out with `notFound` when absent; otherwise, on confirmation:
unlock, append a delete marker, relock, flush, commit record and session.
The store is read-only here (no content is ingested). -/
def remove_file (st : Store) (r : RecordState) (key : String)
    (confirm : Bool) (fail : Step → Bool) : OpResult × RecordState :=
  let bucket := r.bucket
  match ObjectVersion.get bucket key with
  | none => (.notFound, r)
  | some obj =>
    if ¬confirm then (.aborted, r)
    else
      let bucket := bucket.setLocked false
      if fail .deleteObj then (.raised .deleteObj, { r with bucket := bucket })
      else
        let bucket := bucket.deleteKey obj.key
        let bucket := bucket.setLocked true
        let r := { r with bucket := bucket }
        if fail .flushFiles then (.raised .flushFiles, r)
        else
          let r := r.flushFilesMeta st
          if fail .commitRecord then (.raised .commitRecord, r)
          else if fail .commitDb then (.raised .commitDb, r)
          else (.ok, r)

/-! ## The `rename_file` command (cli.py lines 188–224) -/

/-- `rename_file(recid, key, new_key)`, after record resolution.  Bails out
with `notFound` when `key` has no live version and with `alreadyExists` when
`new_key` does.  Otherwise, on confirmation: unlock, capture the old
version's file id, append a delete marker for `key`, append a new version for
`new_key` referencing the same file id, relock, flush, commit. -/
def rename_file (st : Store) (r : RecordState) (key new_key : String)
    (confirm : Bool) (fail : Step → Bool) : OpResult × RecordState :=
  let bucket := r.bucket
  match ObjectVersion.get bucket key with
  | none => (.notFound, r)
  | some obj =>
    match ObjectVersion.get bucket new_key with
    | some _ => (.alreadyExists, r)
    | none =>
      if ¬confirm then (.aborted, r)
      else
        let bucket := bucket.setLocked false
        let file_id := obj.fileId.getD ""
        if fail .deleteObj then (.raised .deleteObj, { r with bucket := bucket })
        else
          let bucket := bucket.deleteKey obj.key
          if fail .createObj then (.raised .createObj, { r with bucket := bucket })
          else
            let bucket := bucket.createWithFileId new_key file_id
            let bucket := bucket.setLocked true
            let r := { r with bucket := bucket }
            if fail .flushFiles then (.raised .flushFiles, r)
            else
              let r := r.flushFilesMeta st
              if fail .commitRecord then (.raised .commitRecord, r)
              else if fail .commitDb then (.raised .commitDb, r)
              else (.ok, r)

/-! ## The `attach_file` command (cli.py lines 227–291) -/

/-- Python truthiness of an optional CLI string option: `None` and the empty
string are falsy. -/
def pytruthy : Option String → Bool
  | none => false
  | some s => !s.isEmpty

/-- The world the attach command runs against: the shared file-instance
store and the records reachable through the `recid`/`depid` resolvers, keyed
by (pid type, pid value). -/
structure World where
  store : Store
  records : List ((String × String) × RecordState)
deriving Repr, DecidableEq

/-- `resolver.resolve(pid_value)` for the resolver selected by the pid
type. -/
def World.resolve (w : World) (pt pv : String) : Option RecordState :=
  (w.records.find? (fun e => e.1 == (pt, pv))).map (fun e => e.2)

/-- Write back a mutated record under its pid. -/
def World.setRecord (w : World) (pt pv : String) (r : RecordState) : World :=
  { w with records :=
      w.records.map (fun e => if e.1 == (pt, pv) then (e.1, r) else e) }

/-- Lines 245–251 of `attach_file`: the `assert` guard, exactly as the
source writes it — either a truthy file id or all three source options, all
three destination options, `pid_type1` (when truthy) in {recid, depid}, and
`pid_type2` in {recid, depid}. -/
def attachAssertOk (file_id pt1 pv1 k1 pt2 pv2 k2 : Option String) : Bool :=
  ((pytruthy file_id || (pytruthy pt1 && pytruthy pv1 && pytruthy k1)) &&
    (pytruthy pt2 && pytruthy pv2 && pytruthy k2)) &&
  (!pytruthy pt1 || (pt1 == some "recid" || pt1 == some "depid")) &&
  (pt2 == some "recid" || pt2 == some "depid")

/-- Lines 253–264 of `attach_file` (`if not file_id:`): when no truthy file
id was given, resolve the source record through the resolver selected by
`pid_type1` and take the file id of the live version at `key1`, bailing out
with `notFound` when absent — before the destination is even resolved. -/
def attachResolveFid (w : World) (file_id pt1 pv1 k1 : Option String) :
    Except OpResult String :=
  if ¬ pytruthy file_id then
    match w.resolve (pt1.getD "") (pv1.getD "") with
    | none => .error .pidNotFound
    | some r1 =>
      match ObjectVersion.get r1.bucket (k1.getD "") with
      | none => .error .notFound
      | some obj1 => .ok (obj1.fileId.getD "")
  else .ok (file_id.getD "")

/-- Lines 266–291 of `attach_file`: resolve the destination, bail out with
`alreadyExists` when `key2` is live; on confirmation unlock the destination
bucket, create the new version referencing the file id, relock only when
`pid_type2 == 'recid'`, flush, commit. -/
def attachToDest (w : World) (fid : String) (pt2 pv2 k2 : Option String)
    (confirm : Bool) (fail : Step → Bool) : OpResult × World :=
  match w.resolve (pt2.getD "") (pv2.getD "") with
  | none => (.pidNotFound, w)
  | some r2 =>
    match ObjectVersion.get r2.bucket (k2.getD "") with
    | some _ => (.alreadyExists, w)
    | none =>
      if ¬confirm then (.aborted, w)
      else
        let bucket := r2.bucket.setLocked false
        if fail .createObj then
          (.raised .createObj,
            w.setRecord (pt2.getD "") (pv2.getD "") { r2 with bucket := bucket })
        else
          let bucket := bucket.createWithFileId (k2.getD "") fid
          let bucket :=
            if pt2 == some "recid" then bucket.setLocked true else bucket
          let r2 := { r2 with bucket := bucket }
          if fail .flushFiles then
            (.raised .flushFiles, w.setRecord (pt2.getD "") (pv2.getD "") r2)
          else
            let r2 := r2.flushFilesMeta w.store
            if fail .commitRecord then
              (.raised .commitRecord, w.setRecord (pt2.getD "") (pv2.getD "") r2)
            else if fail .commitDb then
              (.raised .commitDb, w.setRecord (pt2.getD "") (pv2.getD "") r2)
            else (.ok, w.setRecord (pt2.getD "") (pv2.getD "") r2)

/-- `attach_file(file_id, pid_type1, pid_value1, key1, pid_type2,
pid_value2, key2)`: the asserts, then source resolution, then the
destination mutation.  Returns the outcome and the updated world. -/
def attach_file (w : World) (file_id pt1 pv1 k1 pt2 pv2 k2 : Option String)
    (confirm : Bool) (fail : Step → Bool) : OpResult × World :=
  if ¬ attachAssertOk file_id pt1 pv1 k1 pt2 pv2 k2 then (.assertError, w)
  else
    match attachResolveFid w file_id pt1 pv1 k1 with
    | .error e => (e, w)
    | .ok fid => attachToDest w fid pt2 pv2 k2 confirm fail

/-! ## Specification-side predicates -/

/-- Lock state demanded of a mutator's final bucket, per outcome, as the
source actually behaves: a raise during delete/create (and the size-mismatch
raise inside create) happens between the unlock and the relock, so the
bucket stays unlocked; a raise during flush or either commit happens after
the relock; the early-exit paths never touch the lock. -/
def lockAfterMutator (res : OpResult) (initial final : Bool) : Prop :=
  match res with
  | .ok => final = true
  | .raised .deleteObj => final = false
  | .raised .createObj => final = false
  | .sizeMismatch => final = false
  | .raised _ => final = true
  | _ => final = initial

/-- A pid type option naming one of the two supported resolvers. -/
def validPidType (o : Option String) : Bool :=
  o == some "recid" || o == some "depid"

/-- The attach precondition as the claim words it: either a file id is
supplied, or all three source options are; all three destination options
are; and every supplied pid type is 'recid' or 'depid'. -/
def attachPrecondClaim (file_id pt1 pv1 k1 pt2 pv2 k2 : Option String) : Bool :=
  (pytruthy file_id || (pytruthy pt1 && pytruthy pv1 && pytruthy k1)) &&
  (pytruthy pt2 && pytruthy pv2 && pytruthy k2) &&
  ((!pytruthy pt1 || validPidType pt1) && (!pytruthy pt2 || validPidType pt2))

/-! ## Concrete fixtures for witnesses and counterexamples -/

/-- A stored file referenced by the fixture bucket. -/
def exFile : FileInstance := ⟨"0", "cs1", 3⟩

/-- Fixture store holding `exFile`. -/
def exStore : Store := ⟨[exFile], 1⟩

/-- Fixture bucket: locked, one live key `a.txt`. -/
def exBucket : Bucket := ⟨1, true, [⟨"a.txt", some "0"⟩]⟩

/-- Fixture record over `exBucket`, with a consistent embedded listing. -/
def exRecord : RecordState := ⟨exBucket, [("a.txt", "cs1", 3)]⟩

/-- A fresh two-byte upload named `data.csv`. -/
def exStream : ByteStream := ⟨"/tmp/data.csv", [7, 9], 0, 0⟩

/-- A one-byte upload whose basename collides with the live key `a.txt`. -/
def exStreamA : ByteStream := ⟨"/tmp/a.txt", [5], 0, 0⟩

/-- No injected failures. -/
def noFail : Step → Bool := fun _ => false

/-- Inject an exception at `ObjectVersion.create`. -/
def failCreate : Step → Bool := fun s => s == .createObj

/-- Inject an exception at `ObjectVersion.delete`. -/
def failDelete : Step → Bool := fun s => s == .deleteObj

/-- Fixture world for attach: a source record under pid (recid, 101) and two
empty destination records under (depid, 202) and (recid, 303), all locked. -/
def exWorld : World :=
  ⟨exStore,
    [(("recid", "101"), exRecord),
     (("depid", "202"), ⟨⟨2, true, []⟩, []⟩),
     (("recid", "303"), ⟨⟨3, true, []⟩, []⟩)]⟩

/-- The fixture record with its bucket left unlocked beforehand. -/
def exRecordUnlocked : RecordState :=
  ⟨⟨1, false, [⟨"a.txt", some "0"⟩]⟩, [("a.txt", "cs1", 3)]⟩

/-! # Theorems -/

/-- C1 — counterexample.  Injecting an exception at `ObjectVersion.create`
during `add_file --replace-existing` propagates with the destination bucket
left **unlocked** and with the live listing already changed (the old version
was tombstoned by the preceding delete): the source has no try/finally
around its unlock–mutate–relock sequence, so the claimed relock-on-error
and unchanged `list(bucket)` both fail. -/
theorem add_file_raise_leaves_bucket_unlocked :
    (add_file exStore exRecord exStreamA true true failCreate).result
        = .raised .createObj ∧
    (add_file exStore exRecord exStreamA true true failCreate).record.bucket.locked
        = false ∧
    bucketListing exStore
        (add_file exStore exRecord exStreamA true true failCreate).record.bucket
      ≠ bucketListing exStore exRecord.bucket := by
  decide

/-- C2 — counterexample.  A successful attach onto a deposit
(`pid_type2 = 'depid'`) leaves the destination bucket **unlocked**: the
source relocks only under `if pid_type2 == 'recid'`. -/
theorem attach_depid_left_unlocked :
    (attach_file exWorld none (some "recid") (some "101") (some "a.txt")
        (some "depid") (some "202") (some "b.txt") true noFail).1 = .ok ∧
    ((attach_file exWorld none (some "recid") (some "101") (some "a.txt")
        (some "depid") (some "202") (some "b.txt") true noFail).2.resolve
        "depid" "202").map (fun r => r.bucket.locked) = some false := by
  decide

/-- C4 — counterexample.  Running `add_file` against a bucket that is
already unlocked signals no conflict at all: the unlock is the plain
assignment `bucket.locked = False`, the mutation proceeds, and the command
succeeds. -/
theorem add_file_on_unlocked_bucket_succeeds :
    (add_file exStore exRecordUnlocked exStream false true noFail).result
        = .ok ∧
    (add_file exStore exRecordUnlocked exStream false true noFail).record.bucket.versions
        = [⟨"data.csv", some "1"⟩, ⟨"a.txt", some "0"⟩] := by
  decide

/-- C5 — counterexample.  The size of the incoming file is *not* computed by
draining the stream: lines 90–92 seek to the end, read the position and
rewind, performing zero read operations. -/
theorem sizeCalc_performs_no_read :
    (sizeCalc exStream).1 = exStream.content.length ∧
    (sizeCalc exStream).2.reads = 0 ∧
    ¬ (sizeCalc exStream).2.reads = 1 := by
  decide

/-! ## Helper lemmas about `ObjectVersion.get` -/

/-- A successful `get` returns a version for the requested key with a live
file reference. -/
theorem get_eq_some_facts (b : Bucket) (k : String) (v : ObjectVersion)
    (h : ObjectVersion.get b k = some v) : v.key = k ∧ v.fileId.isSome = true := by
  unfold ObjectVersion.get at h
  cases hf : b.versions.find? (fun w => w.key == k) with
  | none => rw [hf] at h; cases h
  | some w =>
    rw [hf] at h
    have hw := List.find?_some hf
    cases hfid : w.fileId with
    | none => simp [hfid] at h
    | some fid =>
      simp [hfid] at h
      cases h
      exact ⟨by simpa using hw, by simp [hfid]⟩

/-- `get` at a key whose newest version is live returns that version. -/
theorem get_head_live (b : Bucket) (k fid : String) (vs : List ObjectVersion)
    (h : b.versions = ⟨k, some fid⟩ :: vs) :
    ObjectVersion.get b k = some ⟨k, some fid⟩ := by
  unfold ObjectVersion.get
  rw [h]
  simp [List.find?]

/-- `get` at a key whose newest version is a delete marker returns none. -/
theorem get_head_tombstone (b : Bucket) (k : String) (vs : List ObjectVersion)
    (h : b.versions = ⟨k, none⟩ :: vs) :
    ObjectVersion.get b k = none := by
  unfold ObjectVersion.get
  rw [h]
  simp [List.find?]

/-! ## World update lemmas -/

/-- Updating an association list at a present key makes the subsequent
lookup return the new value. -/
theorem find_map_update {α β : Type} [BEq α] [LawfulBEq α]
    (l : List (α × β)) (k : α) (r : β)
    (h : (l.find? (fun e => e.1 == k)).isSome = true) :
    (l.map (fun e => if e.1 == k then (e.1, r) else e)).find?
        (fun e => e.1 == k) = some (k, r) := by
  induction l with
  | nil => simp at h
  | cons hd tl ih =>
    by_cases hk : (hd.1 == k) = true
    · have hq : hd.1 = k := eq_of_beq hk
      simp [List.find?, hk, hq]
    · have hk2 : (hd.1 == k) = false := by
        cases hb : (hd.1 == k) with
        | true => exact absurd hb hk
        | false => rfl
      simp only [List.find?_cons, hk2, cond_false] at h
      simp only [List.map, hk2, Bool.false_eq_true, if_false,
        List.find?_cons, cond_false]
      exact ih h

/-- Resolving a pid after `setRecord` on that same pid yields the written
record, provided the pid existed before. -/
theorem World.resolve_setRecord (w : World) (pt pv : String)
    (r r0 : RecordState) (h : w.resolve pt pv = some r0) :
    (w.setRecord pt pv r).resolve pt pv = some r := by
  unfold World.resolve World.setRecord
  have hs : (w.records.find? (fun e => e.1 == (pt, pv))).isSome = true := by
    unfold World.resolve at h
    cases hf : w.records.find? (fun e => e.1 == (pt, pv)) with
    | none => rw [hf] at h; cases h
    | some e => rfl
  simp only []
  rw [find_map_update w.records (pt, pv) r hs]
  rfl

/-! ## C6 — rename is zero-copy -/

/-- C6: after a successful `rename_file`, the new key's version references
the same file id as the prior version of the old key (captured before the
delete — no byte copy, no new `FileInstance`), the history gained exactly a
delete marker for the old key and a new version for the new key, `get` at
the new key returns the new version, and `get` at the old key returns
none. -/
theorem rename_file_zero_copy (st : Store) (r : RecordState) (key nk : String)
    (fail : Step → Bool) (obj : ObjectVersion)
    (hobj : ObjectVersion.get r.bucket key = some obj)
    (hnew : ObjectVersion.get r.bucket nk = none)
    (hf : ∀ s, fail s = false) :
    (rename_file st r key nk true fail).1 = .ok ∧
    (rename_file st r key nk true fail).2.bucket.versions =
      ⟨nk, obj.fileId⟩ :: ⟨key, none⟩ :: r.bucket.versions ∧
    ObjectVersion.get (rename_file st r key nk true fail).2.bucket nk
      = some ⟨nk, obj.fileId⟩ ∧
    ObjectVersion.get (rename_file st r key nk true fail).2.bucket key = none := by
  obtain ⟨hkey, hsome⟩ := get_eq_some_facts r.bucket key obj hobj
  obtain ⟨fid, hfid⟩ := Option.isSome_iff_exists.mp hsome
  have hne : key ≠ nk := by
    intro e; rw [e, hnew] at hobj; cases hobj
  have hout : rename_file st r key nk true fail =
      (.ok, { bucket := ⟨r.bucket.id, true, ⟨nk, obj.fileId⟩ :: ⟨key, none⟩ :: r.bucket.versions⟩,
              filesMeta := bucketListing st
                ⟨r.bucket.id, true, ⟨nk, obj.fileId⟩ :: ⟨key, none⟩ :: r.bucket.versions⟩ }) := by
    simp [rename_file, hobj, hnew, hf, Bucket.setLocked, Bucket.deleteKey,
      Bucket.createWithFileId, RecordState.flushFilesMeta, hkey, hfid]
  refine ⟨by rw [hout], by rw [hout], ?_, ?_⟩
  · rw [hout, hfid]
    exact get_head_live _ nk fid _ rfl
  · rw [hout]
    unfold ObjectVersion.get
    have h1 : (nk == key) = false := beq_eq_false_iff_ne.mpr (Ne.symm hne)
    simp [List.find?, h1]

/-- C6 — witness: the concrete rename of `a.txt` to `b.txt` on the fixture
bucket. -/
theorem rename_file_zero_copy_witness :
    (rename_file exStore exRecord "a.txt" "b.txt" true noFail).1 = .ok ∧
    (rename_file exStore exRecord "a.txt" "b.txt" true noFail).2.bucket.versions =
      ⟨"b.txt", some "0"⟩ :: ⟨"a.txt", none⟩ :: exRecord.bucket.versions ∧
    ObjectVersion.get
        (rename_file exStore exRecord "a.txt" "b.txt" true noFail).2.bucket "b.txt"
      = some ⟨"b.txt", some "0"⟩ ∧
    ObjectVersion.get
        (rename_file exStore exRecord "a.txt" "b.txt" true noFail).2.bucket "a.txt"
      = none :=
  rename_file_zero_copy exStore exRecord "a.txt" "b.txt" noFail ⟨"a.txt", some "0"⟩
    (by decide) (by decide) (fun _ => rfl)

/-! ## C8 — remove semantics -/

/-- C8: `remove_file` returns `notFound` and leaves everything unchanged
when the key has no live version; otherwise (confirmed, no injected
failure) it succeeds, the history gained exactly a delete marker for the
key, and the bucket ends relocked. -/
theorem remove_file_semantics (st : Store) (r : RecordState) (key : String)
    (c : Bool) (fail : Step → Bool) (hf : ∀ s, fail s = false) :
    (ObjectVersion.get r.bucket key = none →
      remove_file st r key c fail = (.notFound, r)) ∧
    (∀ obj, ObjectVersion.get r.bucket key = some obj →
      (remove_file st r key true fail).1 = .ok ∧
      (remove_file st r key true fail).2.bucket.versions =
        ⟨key, none⟩ :: r.bucket.versions ∧
      (remove_file st r key true fail).2.bucket.locked = true) := by
  constructor
  · intro h
    simp [remove_file, h]
  · intro obj hobj
    have hkey := (get_eq_some_facts r.bucket key obj hobj).1
    simp [remove_file, hobj, hf, Bucket.setLocked, Bucket.deleteKey,
      RecordState.flushFilesMeta, hkey]

/-- C8 — witness: removing a missing key and a live key on the fixture. -/
theorem remove_file_semantics_witness :
    remove_file exStore exRecord "zzz" true noFail = (.notFound, exRecord) ∧
    (remove_file exStore exRecord "a.txt" true noFail).1 = .ok ∧
    (remove_file exStore exRecord "a.txt" true noFail).2.bucket.versions =
      ⟨"a.txt", none⟩ :: exRecord.bucket.versions ∧
    (remove_file exStore exRecord "a.txt" true noFail).2.bucket.locked = true :=
  ⟨(remove_file_semantics exStore exRecord "zzz" true noFail (fun _ => rfl)).1
      (by decide),
    (remove_file_semantics exStore exRecord "a.txt" true noFail (fun _ => rfl)).2
      ⟨"a.txt", some "0"⟩ (by decide)⟩

/-! ## C5 — how the size is computed -/

/-- Ingesting a rewound stream with its declared size equal to its measured
length always succeeds, drains the whole content and counts one read. -/
theorem createFromStream_pos0 (st : Store) (b : Bucket) (key name : String)
    (content : List Nat) (reads : Nat) :
    createFromStream st b key ⟨name, content, 0, reads⟩ content.length =
      some ({ files := ⟨toString st.nextId, digest content, content.length⟩ :: st.files,
              nextId := st.nextId + 1 },
        b.createWithFileId key (toString st.nextId),
        ⟨name, content, content.length, reads + 1⟩) := by
  simp [createFromStream, ByteStream.readAll]

/-- C5 (amended): the declared size is obtained by seeking to the end and
reading the position — zero read operations — after which the stream is
rewound; the size-mismatch failure is therefore unreachable from
`add_file` (the declared size always equals the observed length), and on
success the stream has been drained exactly once, by content ingestion. -/
theorem add_file_size_by_seek (st : Store) (r : RecordState)
    (fp : ByteStream) (re c : Bool) (fail : Step → Bool) :
    (sizeCalc fp).1 = fp.content.length ∧
    (sizeCalc fp).2.reads = fp.reads ∧
    (sizeCalc fp).2.pos = 0 ∧
    (add_file st r fp re c fail).result ≠ .sizeMismatch ∧
    ((add_file st r fp re c fail).result = .ok →
      (add_file st r fp re c fail).stream.reads = fp.reads + 1) := by
  refine ⟨rfl, rfl, rfl, ?_, ?_⟩ <;>
  · cases hobj : ObjectVersion.get r.bucket (basename fp.name) <;>
      cases re <;> cases c <;>
      cases hfd : fail .deleteObj <;> cases hfc : fail .createObj <;>
      cases hff : fail .flushFiles <;> cases hfr : fail .commitRecord <;>
      cases hfb : fail .commitDb <;>
      simp_all [add_file, sizeCalc, ByteStream.seekEnd, ByteStream.seekSet,
        ByteStream.tell, createFromStream_pos0, Bucket.setLocked,
        RecordState.flushFilesMeta, Bucket.deleteKey]

/-- C5 — witness: the fixture upload is read exactly once. -/
theorem add_file_size_by_seek_witness :
    (add_file exStore exRecord exStream false true noFail).stream.reads
      = exStream.reads + 1 :=
  (add_file_size_by_seek exStore exRecord exStream false true noFail).2.2.2.2
    (by decide)

/-! ## C1 — lock discipline of the mutators -/

/-- C1 (amended): the lock state each mutator actually leaves behind, per
outcome: a raise injected at delete or create (or a size mismatch inside
create) propagates with the bucket still unlocked — there is no
relock-on-error handler — while a raise at flush or either commit
propagates after the relock, with the mutations retained; success relocks;
the precondition-failure and abort paths never touch the lock. -/
theorem mutators_lock_discipline (st : Store) (r : RecordState)
    (fp : ByteStream) (re c : Bool) (key nk : String) (fail : Step → Bool) :
    lockAfterMutator (add_file st r fp re c fail).result
      r.bucket.locked (add_file st r fp re c fail).record.bucket.locked ∧
    lockAfterMutator (remove_file st r key c fail).1
      r.bucket.locked (remove_file st r key c fail).2.bucket.locked ∧
    lockAfterMutator (rename_file st r key nk c fail).1
      r.bucket.locked (rename_file st r key nk c fail).2.bucket.locked := by
  refine ⟨?_, ?_, ?_⟩
  · cases hobj : ObjectVersion.get r.bucket (basename fp.name) <;>
      cases re <;> cases c <;>
      cases hfd : fail .deleteObj <;> cases hfc : fail .createObj <;>
      cases hff : fail .flushFiles <;> cases hfr : fail .commitRecord <;>
      cases hfb : fail .commitDb <;>
      simp_all [add_file, lockAfterMutator, sizeCalc, ByteStream.seekEnd,
        ByteStream.seekSet, ByteStream.tell, createFromStream_pos0,
        Bucket.setLocked, RecordState.flushFilesMeta, Bucket.deleteKey]
  · cases hobj : ObjectVersion.get r.bucket key <;> cases c <;>
      cases hfd : fail .deleteObj <;>
      cases hff : fail .flushFiles <;> cases hfr : fail .commitRecord <;>
      cases hfb : fail .commitDb <;>
      simp_all [remove_file, lockAfterMutator, Bucket.setLocked,
        RecordState.flushFilesMeta, Bucket.deleteKey]
  · cases hobj : ObjectVersion.get r.bucket key <;>
      cases hnew : ObjectVersion.get r.bucket nk <;> cases c <;>
      cases hfd : fail .deleteObj <;> cases hfc : fail .createObj <;>
      cases hff : fail .flushFiles <;> cases hfr : fail .commitRecord <;>
      cases hfb : fail .commitDb <;>
      simp_all [rename_file, lockAfterMutator, Bucket.setLocked,
        RecordState.flushFilesMeta, Bucket.deleteKey, Bucket.createWithFileId]

/-! ## Attach helper lemmas -/

/-- Source resolution never produces `.error .ok`. -/
theorem attachResolveFid_error_ne_ok (w : World) (f p1 v1 key1 : Option String)
    (e : OpResult) (h : attachResolveFid w f p1 v1 key1 = .error e) :
    e ≠ .ok := by
  intro hc
  subst hc
  unfold attachResolveFid at h
  by_cases hf : pytruthy f = true
  · simp [hf] at h
  · cases hres : w.resolve (p1.getD "") (v1.getD "") with
    | none => simp [hf, hres] at h
    | some r1 =>
      cases hobj : ObjectVersion.get r1.bucket (key1.getD "") with
      | none => simp [hf, hres, hobj] at h
      | some o => simp [hf, hres, hobj] at h

/-- Shape of a successful destination mutation: the destination resolved,
`key2` was free, and the final world carries the destination record with the
new version at the head of its history, the lock set exactly when
`pid_type2 == 'recid'`, and the listing flushed. -/
theorem attachToDest_ok_shape (w : World) (fid : String)
    (p2 v2 key2 : Option String) (c : Bool) (fail : Step → Bool)
    (h : (attachToDest w fid p2 v2 key2 c fail).1 = .ok) :
    ∃ r2, w.resolve (p2.getD "") (v2.getD "") = some r2 ∧
      ObjectVersion.get r2.bucket (key2.getD "") = none ∧
      attachToDest w fid p2 v2 key2 c fail =
        (.ok, w.setRecord (p2.getD "") (v2.getD "")
          (RecordState.flushFilesMeta w.store
            { r2 with bucket := ⟨r2.bucket.id, p2 == some "recid",
                ⟨key2.getD "", some fid⟩ :: r2.bucket.versions⟩ })) := by
  cases hres : w.resolve (p2.getD "") (v2.getD "") with
  | none => exfalso; revert h; simp [attachToDest, hres]
  | some r2 =>
    cases hobj : ObjectVersion.get r2.bucket (key2.getD "") with
    | some o => exfalso; revert h; simp [attachToDest, hres, hobj]
    | none =>
      cases c with
      | false => exfalso; revert h; simp [attachToDest, hres, hobj]
      | true =>
        cases hfc : fail .createObj with
        | true => exfalso; revert h; simp [attachToDest, hres, hobj, hfc]
        | false =>
          cases hff : fail .flushFiles with
          | true => exfalso; revert h; simp [attachToDest, hres, hobj, hfc, hff]
          | false =>
            cases hfr : fail .commitRecord with
            | true =>
              exfalso; revert h; simp [attachToDest, hres, hobj, hfc, hff, hfr]
            | false =>
              cases hfb : fail .commitDb with
              | true =>
                exfalso; revert h
                simp [attachToDest, hres, hobj, hfc, hff, hfr, hfb]
              | false =>
                refine ⟨r2, rfl, hobj, ?_⟩
                by_cases hp : (p2 == some "recid") = true
                · simp [attachToDest, hres, hobj, hfc, hff, hfr, hfb, hp,
                    Bucket.setLocked, Bucket.createWithFileId]
                · have hp2 : (p2 == some "recid") = false := by
                    cases hb : (p2 == some "recid") with
                    | true => exact absurd hb hp
                    | false => rfl
                  simp [attachToDest, hres, hobj, hfc, hff, hfr, hfb, hp2,
                    Bucket.setLocked, Bucket.createWithFileId]

/-- Shape of a successful `attach_file`, lifted over the asserts and source
resolution. -/
theorem attach_file_ok_shape (w : World)
    (f p1 v1 key1 p2 v2 key2 : Option String) (c : Bool) (fail : Step → Bool)
    (h : (attach_file w f p1 v1 key1 p2 v2 key2 c fail).1 = .ok) :
    ∃ fid r2, w.resolve (p2.getD "") (v2.getD "") = some r2 ∧
      ObjectVersion.get r2.bucket (key2.getD "") = none ∧
      attach_file w f p1 v1 key1 p2 v2 key2 c fail =
        (.ok, w.setRecord (p2.getD "") (v2.getD "")
          (RecordState.flushFilesMeta w.store
            { r2 with bucket := ⟨r2.bucket.id, p2 == some "recid",
                ⟨key2.getD "", some fid⟩ :: r2.bucket.versions⟩ })) := by
  by_cases ha : attachAssertOk f p1 v1 key1 p2 v2 key2 = true
  case neg => exfalso; revert h; simp [attach_file, ha]
  case pos =>
    cases hE : attachResolveFid w f p1 v1 key1 with
    | error e =>
      exfalso
      have hne := attachResolveFid_error_ne_ok w f p1 v1 key1 e hE
      revert h
      simp [attach_file, ha, hE]
      exact fun hc => hne hc
    | ok fid =>
      have heq : attach_file w f p1 v1 key1 p2 v2 key2 c fail =
          attachToDest w fid p2 v2 key2 c fail := by
        simp [attach_file, ha, hE]
      rw [heq] at h
      obtain ⟨r2, hres, hobj, hshape⟩ :=
        attachToDest_ok_shape w fid p2 v2 key2 c fail h
      exact ⟨fid, r2, hres, hobj, heq.trans hshape⟩

/-! ## C2 — attach relocks only a record destination -/

/-- C2 (amended): on every successful attach the destination bucket gains
the new version at the head of its history, but it is relocked only when
the destination was resolved as a record (`pid_type2 == 'recid'`); a
deposit destination (`'depid'`) is left unlocked. -/
theorem attach_relock_only_for_recid (w : World)
    (f p1 v1 key1 p2 v2 key2 : Option String) (c : Bool) (fail : Step → Bool)
    (h : (attach_file w f p1 v1 key1 p2 v2 key2 c fail).1 = .ok) :
    ∃ r2 fid rF,
      w.resolve (p2.getD "") (v2.getD "") = some r2 ∧
      (attach_file w f p1 v1 key1 p2 v2 key2 c fail).2.resolve
        (p2.getD "") (v2.getD "") = some rF ∧
      rF.bucket.locked = (p2 == some "recid") ∧
      rF.bucket.versions = ⟨key2.getD "", some fid⟩ :: r2.bucket.versions := by
  obtain ⟨fid, r2, hres, hobj, hshape⟩ :=
    attach_file_ok_shape w f p1 v1 key1 p2 v2 key2 c fail h
  refine ⟨r2, fid,
    RecordState.flushFilesMeta w.store
      { r2 with bucket := ⟨r2.bucket.id, p2 == some "recid",
          ⟨key2.getD "", some fid⟩ :: r2.bucket.versions⟩ },
    hres, ?_, rfl, rfl⟩
  rw [hshape]
  exact World.resolve_setRecord w (p2.getD "") (v2.getD "") _ r2 hres

/-- C2 — witness: the successful fixture attach onto the deposit
destination, whose bucket ends up with the new version and the lock flag
equal to `'depid' == 'recid'`, i.e. unlocked. -/
theorem attach_relock_only_for_recid_witness :
    ∃ r2 fid rF,
      exWorld.resolve ((some "depid").getD "") ((some "202").getD "") = some r2 ∧
      (attach_file exWorld none (some "recid") (some "101") (some "a.txt")
          (some "depid") (some "202") (some "b.txt") true noFail).2.resolve
        ((some "depid").getD "") ((some "202").getD "") = some rF ∧
      rF.bucket.locked = ((some "depid" : Option String) == some "recid") ∧
      rF.bucket.versions =
        ⟨(some "b.txt").getD "", some fid⟩ :: r2.bucket.versions :=
  attach_relock_only_for_recid exWorld none (some "recid") (some "101")
    (some "a.txt") (some "depid") (some "202") (some "b.txt") true noFail
    (by decide)

/-! ## C3 — metadata sync on every successful mutation -/

/-- C3: whenever a mutating command commits (`ok` outcome), the embedded
file listing it committed equals exactly the live-version projection of its
bucket, for all four commands (`record.files.flush()` runs after the index
mutation and before the commit, and nothing mutates the bucket
afterwards). -/
theorem metadata_sync_on_success (st : Store) (r : RecordState)
    (fp : ByteStream) (re c : Bool) (key nk : String) (fail : Step → Bool)
    (w : World) (f p1 v1 key1 p2 v2 key2 : Option String) :
    ((add_file st r fp re c fail).result = .ok →
      (add_file st r fp re c fail).record.filesMeta =
        bucketListing (add_file st r fp re c fail).store
          (add_file st r fp re c fail).record.bucket) ∧
    ((remove_file st r key c fail).1 = .ok →
      (remove_file st r key c fail).2.filesMeta =
        bucketListing st (remove_file st r key c fail).2.bucket) ∧
    ((rename_file st r key nk c fail).1 = .ok →
      (rename_file st r key nk c fail).2.filesMeta =
        bucketListing st (rename_file st r key nk c fail).2.bucket) ∧
    ((attach_file w f p1 v1 key1 p2 v2 key2 c fail).1 = .ok →
      ∃ rF,
        (attach_file w f p1 v1 key1 p2 v2 key2 c fail).2.resolve
          (p2.getD "") (v2.getD "") = some rF ∧
        rF.filesMeta = bucketListing w.store rF.bucket ∧
        (attach_file w f p1 v1 key1 p2 v2 key2 c fail).2.store = w.store) := by
  refine ⟨?_, ?_, ?_, ?_⟩
  · cases hobj : ObjectVersion.get r.bucket (basename fp.name) <;>
      cases re <;> cases c <;>
      cases hfd : fail .deleteObj <;> cases hfc : fail .createObj <;>
      cases hff : fail .flushFiles <;> cases hfr : fail .commitRecord <;>
      cases hfb : fail .commitDb <;>
      simp_all [add_file, sizeCalc, ByteStream.seekEnd, ByteStream.seekSet,
        ByteStream.tell, createFromStream_pos0, Bucket.setLocked,
        RecordState.flushFilesMeta, Bucket.deleteKey]
  · cases hobj : ObjectVersion.get r.bucket key <;> cases c <;>
      cases hfd : fail .deleteObj <;>
      cases hff : fail .flushFiles <;> cases hfr : fail .commitRecord <;>
      cases hfb : fail .commitDb <;>
      simp_all [remove_file, Bucket.setLocked, RecordState.flushFilesMeta,
        Bucket.deleteKey]
  · cases hobj : ObjectVersion.get r.bucket key <;>
      cases hnew : ObjectVersion.get r.bucket nk <;> cases c <;>
      cases hfd : fail .deleteObj <;> cases hfc : fail .createObj <;>
      cases hff : fail .flushFiles <;> cases hfr : fail .commitRecord <;>
      cases hfb : fail .commitDb <;>
      simp_all [rename_file, Bucket.setLocked, RecordState.flushFilesMeta,
        Bucket.deleteKey, Bucket.createWithFileId]
  · intro h
    obtain ⟨fid, r2, hres, hobj, hshape⟩ :=
      attach_file_ok_shape w f p1 v1 key1 p2 v2 key2 c fail h
    refine ⟨RecordState.flushFilesMeta w.store
      { r2 with bucket := ⟨r2.bucket.id, p2 == some "recid",
          ⟨key2.getD "", some fid⟩ :: r2.bucket.versions⟩ }, ?_, rfl, ?_⟩
    · rw [hshape]
      exact World.resolve_setRecord w (p2.getD "") (v2.getD "") _ r2 hres
    · rw [hshape]
      rfl

/-- C3 — witness: the committed listings of the four fixture runs all equal
the live projection. -/
theorem metadata_sync_on_success_witness :
    ((add_file exStore exRecord exStream false true noFail).record.filesMeta =
      bucketListing (add_file exStore exRecord exStream false true noFail).store
        (add_file exStore exRecord exStream false true noFail).record.bucket) ∧
    ((remove_file exStore exRecord "a.txt" true noFail).2.filesMeta =
      bucketListing exStore
        (remove_file exStore exRecord "a.txt" true noFail).2.bucket) ∧
    ((rename_file exStore exRecord "a.txt" "b.txt" true noFail).2.filesMeta =
      bucketListing exStore
        (rename_file exStore exRecord "a.txt" "b.txt" true noFail).2.bucket) ∧
    (∃ rF,
      (attach_file exWorld none (some "recid") (some "101") (some "a.txt")
          (some "recid") (some "303") (some "b.txt") true noFail).2.resolve
        ((some "recid").getD "") ((some "303").getD "") = some rF ∧
      rF.filesMeta = bucketListing exWorld.store rF.bucket ∧
      (attach_file exWorld none (some "recid") (some "101") (some "a.txt")
          (some "recid") (some "303") (some "b.txt") true noFail).2.store
        = exWorld.store) :=
  ⟨(metadata_sync_on_success exStore exRecord exStream false true "a.txt" "b.txt"
      noFail exWorld none (some "recid") (some "101") (some "a.txt")
      (some "recid") (some "303") (some "b.txt")).1 (by decide),
    (metadata_sync_on_success exStore exRecord exStream false true "a.txt" "b.txt"
      noFail exWorld none (some "recid") (some "101") (some "a.txt")
      (some "recid") (some "303") (some "b.txt")).2.1 (by decide),
    (metadata_sync_on_success exStore exRecord exStream false true "a.txt" "b.txt"
      noFail exWorld none (some "recid") (some "101") (some "a.txt")
      (some "recid") (some "303") (some "b.txt")).2.2.1 (by decide),
    (metadata_sync_on_success exStore exRecord exStream false true "a.txt" "b.txt"
      noFail exWorld none (some "recid") (some "101") (some "a.txt")
      (some "recid") (some "303") (some "b.txt")).2.2.2 (by decide)⟩

/-! ## C4 — the unlock is a plain assignment -/

/-- C4 (amended): running `add_file` against a bucket that is already
unlocked raises no conflict whatsoever — the unlock is the plain assignment
`bucket.locked = False` — and the index mutation proceeds and succeeds. -/
theorem add_file_ignores_lock (st : Store) (r : RecordState)
    (fp : ByteStream) (fail : Step → Bool)
    (hlock : r.bucket.locked = false)
    (hobj : ObjectVersion.get r.bucket (basename fp.name) = none)
    (hf : ∀ s, fail s = false) :
    (add_file st r fp false true fail).result = .ok ∧
    (add_file st r fp false true fail).record.bucket.versions =
      ⟨basename fp.name, some (toString st.nextId)⟩ :: r.bucket.versions := by
  clear hlock
  simp [add_file, hobj, hf, sizeCalc, ByteStream.seekEnd, ByteStream.seekSet,
    ByteStream.tell, createFromStream_pos0, Bucket.setLocked,
    RecordState.flushFilesMeta, Bucket.createWithFileId]

/-- C4 — witness: adding `data.csv` to the already-unlocked fixture
bucket. -/
theorem add_file_ignores_lock_witness :
    (add_file exStore exRecordUnlocked exStream false true noFail).result
      = .ok ∧
    (add_file exStore exRecordUnlocked exStream false true noFail).record.bucket.versions =
      ⟨basename exStream.name, some (toString exStore.nextId)⟩ ::
        exRecordUnlocked.bucket.versions :=
  add_file_ignores_lock exStore exRecordUnlocked exStream noFail rfl
    (by decide) (fun _ => rfl)

/-! ## Listing enumeration lemmas -/

/-- Inserting into a sorted list permutes consing. -/
theorem insertSorted_perm (s : String) (l : List String) :
    (insertSorted s l).Perm (s :: l) := by
  induction l with
  | nil => exact List.Perm.refl _
  | cons x xs ih =>
    unfold insertSorted
    by_cases h : strLe s x = true
    · rw [if_pos h]
    · rw [if_neg h]
      exact (ih.cons x).trans (List.Perm.swap s x xs)

/-- Insertion sort permutes its input. -/
theorem sortKeys_perm (l : List String) : (sortKeys l).Perm l := by
  induction l with
  | nil => exact List.Perm.refl _
  | cons x xs ih =>
    have hstep : sortKeys (x :: xs) = insertSorted x (sortKeys xs) := rfl
    rw [hstep]
    exact (insertSorted_perm x (sortKeys xs)).trans (ih.cons x)

/-- The enumerated listing keys are pairwise distinct. -/
theorem sortedKeys_nodup (b : Bucket) : b.sortedKeys.Nodup :=
  (sortKeys_perm _).nodup_iff.mpr (List.nodup_dedup _)

/-- A key is enumerated exactly when it occurs in the version history. -/
theorem mem_sortedKeys (b : Bucket) (k : String) :
    k ∈ b.sortedKeys ↔ k ∈ b.versions.map (fun v => v.key) :=
  ((sortKeys_perm _).mem_iff).trans (List.mem_dedup)

/-- No entry produced from keys other than `k` survives the filter for
`k`. -/
theorem filter_filterMap_eq_nil {β : Type} (g : String → Option β)
    (proj : β → String) (hg : ∀ k x, g k = some x → proj x = k)
    (keys : List String) (k : String) (hk : k ∉ keys) :
    (keys.filterMap g).filter (fun y => proj y == k) = [] := by
  induction keys with
  | nil => rfl
  | cons a as ih =>
    have hka : a ≠ k := by
      intro e; exact hk (e ▸ List.mem_cons_self a as)
    have hk2 : k ∉ as := fun hmem => hk (List.mem_cons_of_mem a hmem)
    cases hga : g a with
    | none =>
      rw [List.filterMap_cons_none hga]
      exact ih hk2
    | some y =>
      have hya : proj y = a := hg a y hga
      have hbeq : (proj y == k) = false :=
        beq_eq_false_iff_ne.mpr (by rw [hya]; exact hka)
      rw [List.filterMap_cons_some hga]
      rw [List.filter_cons_of_neg (by simp [hbeq])]
      exact ih hk2

/-- Over pairwise-distinct keys, filtering the produced entries for a key
that contributes one yields exactly that entry. -/
theorem filter_filterMap_singleton {β : Type} (g : String → Option β)
    (proj : β → String) (hg : ∀ k x, g k = some x → proj x = k)
    (keys : List String) (hnd : keys.Nodup) (k : String) (hk : k ∈ keys)
    (x : β) (hx : g k = some x) :
    (keys.filterMap g).filter (fun y => proj y == k) = [x] := by
  induction keys with
  | nil => cases hk
  | cons a as ih =>
    by_cases hak : a = k
    · subst hak
      have hknotin : a ∉ as := (List.nodup_cons.mp hnd).1
      have hxa : proj x = a := hg a x hx
      rw [List.filterMap_cons_some hx]
      rw [List.filter_cons_of_pos (by simp [hxa])]
      rw [filter_filterMap_eq_nil g proj hg as a hknotin]
    · have hk2 : k ∈ as := by
        cases List.mem_cons.mp hk with
        | inl h => exact absurd h.symm hak
        | inr h => exact h
      have hnd2 := (List.nodup_cons.mp hnd).2
      cases hga : g a with
      | none =>
        rw [List.filterMap_cons_none hga]
        exact ih hnd2 hk2
      | some y =>
        have hya : proj y = a := hg a y hga
        have hbeq : (proj y == k) = false :=
          beq_eq_false_iff_ne.mpr (by rw [hya]; exact hak)
        rw [List.filterMap_cons_some hga]
        rw [List.filter_cons_of_neg (by simp [hbeq])]
        exact ih hnd2 hk2

/-- A listing entry's first component is the key that produced it. -/
theorem listingEntry_fst (st : Store) (b : Bucket) (k : String)
    (x : String × String × Nat) (h : listingEntry st b k = some x) :
    x.1 = k := by
  unfold listingEntry at h
  cases hget : ObjectVersion.get b k with
  | none => rw [hget] at h; cases h
  | some v =>
    rw [hget] at h
    cases hfid : v.fileId with
    | none => simp [hfid] at h
    | some fid =>
      simp only [hfid] at h
      cases hff : st.findFile fid with
      | none => simp [hff] at h
      | some fl =>
        simp only [hff] at h
        cases h
        rfl

/-- The listing restricted to a key with a live, stored version is exactly
that key's entry. -/
theorem bucketListing_filter_key (st : Store) (b : Bucket) (k : String)
    (x : String × String × Nat)
    (hk : k ∈ b.versions.map (fun v => v.key))
    (hx : listingEntry st b k = some x) :
    (bucketListing st b).filter (fun y => y.1 == k) = [x] :=
  filter_filterMap_singleton (listingEntry st b) (fun y => y.1)
    (listingEntry_fst st b) b.sortedKeys (sortedKeys_nodup b) k
    ((mem_sortedKeys b k).mpr hk) x hx

/-! ## C7 — add with and without replace -/

/-- C7: when the key already has a live version, `add_file` without
`--replace-existing` bails out with `alreadyExists` leaving store, record
and stream untouched; with `--replace-existing` (confirmed, no injected
failure) the old version is tombstoned before the new one is created and
the resulting listing carries exactly one entry for the key — the new
(checksum, size). -/
theorem add_file_replace_semantics (st : Store) (r : RecordState)
    (fp : ByteStream) (c : Bool) (fail : Step → Bool) (obj : ObjectVersion)
    (hobj : ObjectVersion.get r.bucket (basename fp.name) = some obj)
    (hf : ∀ s, fail s = false) :
    add_file st r fp false c fail = ⟨.alreadyExists, st, r, fp⟩ ∧
    (add_file st r fp true true fail).result = .ok ∧
    (add_file st r fp true true fail).record.bucket.versions =
      ⟨basename fp.name, some (toString st.nextId)⟩ ::
        ⟨basename fp.name, none⟩ :: r.bucket.versions ∧
    ((bucketListing (add_file st r fp true true fail).store
        (add_file st r fp true true fail).record.bucket).filter
        (fun y => y.1 == basename fp.name))
      = [(basename fp.name, digest fp.content, fp.content.length)] := by
  have hkey := (get_eq_some_facts _ _ _ hobj).1
  have hout : add_file st r fp true true fail =
      ⟨.ok,
        ⟨⟨toString st.nextId, digest fp.content, fp.content.length⟩ :: st.files,
          st.nextId + 1⟩,
        RecordState.flushFilesMeta
          ⟨⟨toString st.nextId, digest fp.content, fp.content.length⟩ :: st.files,
            st.nextId + 1⟩
          { r with bucket := ⟨r.bucket.id, true,
              ⟨basename fp.name, some (toString st.nextId)⟩ ::
                ⟨basename fp.name, none⟩ :: r.bucket.versions⟩ },
        ⟨fp.name, fp.content, fp.content.length, fp.reads + 1⟩⟩ := by
    simp [add_file, hobj, hf, sizeCalc, ByteStream.seekEnd, ByteStream.seekSet,
      ByteStream.tell, createFromStream_pos0, Bucket.setLocked,
      Bucket.deleteKey, Bucket.createWithFileId, hkey]
  refine ⟨by simp [add_file, hobj], by rw [hout],
    by rw [hout]; simp [RecordState.flushFilesMeta], ?_⟩
  rw [hout]
  have hB : (RecordState.flushFilesMeta
      ⟨⟨toString st.nextId, digest fp.content, fp.content.length⟩ :: st.files,
        st.nextId + 1⟩
      { r with bucket := ⟨r.bucket.id, true,
          ⟨basename fp.name, some (toString st.nextId)⟩ ::
            ⟨basename fp.name, none⟩ :: r.bucket.versions⟩ }).bucket =
      ⟨r.bucket.id, true,
        ⟨basename fp.name, some (toString st.nextId)⟩ ::
          ⟨basename fp.name, none⟩ :: r.bucket.versions⟩ := rfl
  rw [hB]
  apply bucketListing_filter_key
  · simp
  · unfold listingEntry
    rw [get_head_live _ (basename fp.name) (toString st.nextId) _ rfl]
    simp [Store.findFile, List.find?]

/-- C7 — witness: re-adding `a.txt` to the fixture record, without and with
replacement. -/
theorem add_file_replace_semantics_witness :
    add_file exStore exRecord exStreamA false true noFail
      = ⟨.alreadyExists, exStore, exRecord, exStreamA⟩ ∧
    (add_file exStore exRecord exStreamA true true noFail).result = .ok ∧
    (add_file exStore exRecord exStreamA true true noFail).record.bucket.versions =
      ⟨basename exStreamA.name, some (toString exStore.nextId)⟩ ::
        ⟨basename exStreamA.name, none⟩ :: exRecord.bucket.versions ∧
    ((bucketListing (add_file exStore exRecord exStreamA true true noFail).store
        (add_file exStore exRecord exStreamA true true noFail).record.bucket).filter
        (fun y => y.1 == basename exStreamA.name))
      = [(basename exStreamA.name, digest exStreamA.content,
          exStreamA.content.length)] :=
  add_file_replace_semantics exStore exRecord exStreamA true noFail
    ⟨"a.txt", some "0"⟩ (by decide) (fun _ => rfl)

/-! ## C9 — attach with a missing source key -/

/-- C9: when the source is resolved by bucket and key and the key has no
live version, `attach_file` returns `notFound` with the world — in
particular the destination record, its bucket, lock flag and metadata —
entirely unchanged; the destination is not even resolved yet at that
point. -/
theorem attach_missing_source_frame (w : World)
    (f p1 v1 key1 p2 v2 key2 : Option String) (c : Bool)
    (fail : Step → Bool) (r1 : RecordState)
    (hassert : attachAssertOk f p1 v1 key1 p2 v2 key2 = true)
    (hfid : pytruthy f = false)
    (hres : w.resolve (p1.getD "") (v1.getD "") = some r1)
    (hobj : ObjectVersion.get r1.bucket (key1.getD "") = none) :
    attach_file w f p1 v1 key1 p2 v2 key2 c fail = (.notFound, w) := by
  simp [attach_file, attachResolveFid, hassert, hfid, hres, hobj]

/-- C9 — witness: attaching from the missing source key `zzz` leaves the
fixture world untouched. -/
theorem attach_missing_source_frame_witness :
    attach_file exWorld none (some "recid") (some "101") (some "zzz")
      (some "recid") (some "303") (some "b.txt") true noFail
      = (.notFound, exWorld) :=
  attach_missing_source_frame exWorld none (some "recid") (some "101")
    (some "zzz") (some "recid") (some "303") (some "b.txt") true noFail
    exRecord (by decide) rfl (by decide) (by decide)

/-! ## C10 — the attach precondition -/

/-- C10: the assert guard of `attach_file` is exactly the claimed
precondition — a truthy file id or all three source options, all three
destination options, and every supplied pid type in {recid, depid} — and
any violation makes the command fail the assertion with the world
unchanged, before any resolution or mutation. -/
theorem attach_assert_guard (w : World)
    (f p1 v1 key1 p2 v2 key2 : Option String) (c : Bool)
    (fail : Step → Bool) :
    (attachAssertOk f p1 v1 key1 p2 v2 key2 =
      attachPrecondClaim f p1 v1 key1 p2 v2 key2) ∧
    (attachPrecondClaim f p1 v1 key1 p2 v2 key2 = false →
      attach_file w f p1 v1 key1 p2 v2 key2 c fail = (.assertError, w)) := by
  have heq : attachAssertOk f p1 v1 key1 p2 v2 key2 =
      attachPrecondClaim f p1 v1 key1 p2 v2 key2 := by
    unfold attachAssertOk attachPrecondClaim validPidType
    generalize (p1 == some "recid" || p1 == some "depid") = j
    generalize (p2 == some "recid" || p2 == some "depid") = k
    generalize pytruthy f = a
    generalize pytruthy p1 = b
    generalize pytruthy v1 = a1
    generalize pytruthy key1 = a2
    generalize pytruthy p2 = b2
    generalize pytruthy v2 = b3
    generalize pytruthy key2 = b4
    revert a b a1 a2 b2 b3 b4 j k
    decide
  refine ⟨heq, ?_⟩
  intro h
  rw [← heq] at h
  simp [attach_file, h]

/-- C10 — witness: omitting both the file id and the source pid type fails
the assertion and changes nothing. -/
theorem attach_assert_guard_witness :
    (attachAssertOk none none (some "101") (some "a.txt") (some "recid")
        (some "303") (some "b.txt") =
      attachPrecondClaim none none (some "101") (some "a.txt") (some "recid")
        (some "303") (some "b.txt")) ∧
    attach_file exWorld none none (some "101") (some "a.txt") (some "recid")
        (some "303") (some "b.txt") true noFail = (.assertError, exWorld) :=
  ⟨(attach_assert_guard exWorld none none (some "101") (some "a.txt")
      (some "recid") (some "303") (some "b.txt") true noFail).1,
    (attach_assert_guard exWorld none none (some "101") (some "a.txt")
      (some "recid") (some "303") (some "b.txt") true noFail).2 (by decide)⟩
